import Mathlib

/-!
Verification of the query normalization and pagination parameter synthesis
engine of httpx-folio (`src/httpx_folio/query.py`).

The embedding models:
* Python strings as `String`/`List Char` (ASCII case folding),
* the three regular expressions of `_QueryParser` as explicit string
  scanners following Python `re` backtracking semantics on those patterns,
  including newline handling (`.` never matches a newline, `$` asserts at the
  end of the string or before a single trailing newline, `\s` includes the
  newline, and greedy groups backtrack anchor by anchor within the first
  line),
* `httpx.QueryParams` as an insertion-ordered multi-dict
  (`List (String × List String)`) with the `set`/`add`/`remove`/`merge`
  operations of httpx,
* `QueryParams.__init__` as an `Except`-valued construction function
  (`mkState`) mirroring the raise behaviour of the parser helpers, and
* the four views `normalized`, `stats`, `offset_paging`, `id_paging`.
-/

/-! ## Character and string utilities (Python `str.lower`, `str.strip`, `\s`) -/

def lowerL (l : List Char) : List Char := l.map Char.toLower

def isPySpace (c : Char) : Bool :=
  c = ' ' || c = '\t' || c = '\n' || c = '\r' || c = Char.ofNat 11 || c = Char.ofNat 12

def stripL (l : List Char) : List Char :=
  ((l.dropWhile isPySpace).reverse.dropWhile isPySpace).reverse

def occursAt (pat s : List Char) (i : Nat) : Bool := pat.isPrefixOf (s.drop i)

/-- Index of the last occurrence of `pat` in `s`. -/
def lastMatch (pat s : List Char) : Option Nat :=
  ((List.range (s.length + 1)).filter (occursAt pat s)).getLast?

def containsTok (pat s : List Char) : Bool := (lastMatch pat s).isSome

/-- Matchability of a trailing `(.+)?.*$` (or `.*$`) at a remainder `r` under
Python newline semantics: `.` never matches a newline and `$` asserts at the
end of the string or just before a single trailing newline, so the remainder
may contain no newline except as its final character. -/
def validTail (r : List Char) : Bool := !(r.dropLast.contains '\n')

/-- Length of the first line: a greedy `.*` starting at the anchor `^` can
reach exactly the positions up to the first newline. -/
def firstLineLen (l : List Char) : Nat := (l.takeWhile (fun c => !(c == '\n'))).length

/-- Semantics of the regex group `\s*=\s*1` at the head of `l` (Python `\s`
includes the newline, so this group may consume interior newlines):
`some rest` when the group matches, `none` otherwise. -/
def consumeEq1 (l : List Char) : Option (List Char) :=
  match l.dropWhile isPySpace with
  | '=' :: b =>
    match b.dropWhile isPySpace with
    | '1' :: d => some d
    | _ => Option.none
  | _ => Option.none

/-- `_custom_cql_re = ^(.*)sortby.*$` (IGNORECASE): the regex matches only
when the string has no interior newline (`.` excludes `\n`, `.*$` anchors);
group 1 is then the text before the last `sortby` token, kept (stripped) by
the source only when non-empty. -/
def customOf (s : String) : Option String :=
  let ll := lowerL s.toList
  if validTail ll then
    match lastMatch ("sortby".toList) ll with
    | some i => if i = 0 then Option.none else some (String.mk (stripL (s.toList.take i)))
    | Option.none => Option.none
  else Option.none

/-- The tail `(allrecords)?(?:\s*=\s*1)?(.+)?.*$` of `_standard_cql_re`'s
first branch with the `allrecords` group skipped, in backtracking order:
the `\s*=\s*1` group greedy first, then skipped; `(.+)?.*$` succeeds exactly
when `validTail` holds of the remainder. -/
def stdTailNoA (t : List Char) : Option (Bool × List Char) :=
  match consumeEq1 t with
  | some r =>
    if validTail r then some (false, r)
    else if validTail t then some (false, t)
    else Option.none
  | Option.none => if validTail t then some (false, t) else Option.none

/-- The tail `(allrecords)?(?:\s*=\s*1)?(.+)?.*$` of `_standard_cql_re`'s
first branch, in backtracking order (`allrecords` greedy first, then the
`\s*=\s*1` group greedy): returns whether the `allrecords` group
participated, and the remainder seen by `(.+)?`. -/
def stdTail (t : List Char) : Option (Bool × List Char) :=
  if ("allrecords".toList).isPrefixOf t then
    let t10 := t.drop 10
    match consumeEq1 t10 with
    | some r =>
      if validTail r then some (true, r)
      else if validTail t10 then some (true, t10)
      else stdTailNoA t
    | Option.none => if validTail t10 then some (true, t10) else stdTailNoA t
  else stdTailNoA t

/-- The first branch `(.*cql\.)(allrecords)?(?:\s*=\s*1)?(.+)?` of
`_standard_cql_re` followed by `.*$`, under Python newline semantics: the
greedy `.*` of group 1 cannot cross a newline, so the `cql.` anchor must lie
in the first line, and backtracking tries anchors from the last to the first
until the tail matches. On success: the anchor index, whether `allrecords`
participated (group 2), and the remainder seen by group 3. -/
def stdBranch1 (ll : List Char) : Option (Nat × Bool × List Char) :=
  (((List.range (firstLineLen ll + 1)).filter
      (fun i => occursAt ("cql.".toList) ll i && decide (i + 4 ≤ firstLineLen ll))).reverse).findSome?
    (fun i => (stdTail (ll.drop (i + 4))).map (fun gr => (i, gr.1, gr.2)))

/-- `_QueryParser._check_str_default`: evaluates
`_standard_cql_re = ^(?:(.*cql\.)(allrecords)?(?:\s*=\s*1)?(.+)?|(?:.*sortby)).*$`
(IGNORECASE, no DOTALL/MULTILINE: `.` excludes `\n` and `$` allows only a
single trailing newline) and returns `(custom_cql, is_cql, is_default)`
exactly as the source does on the match groups; group 3 is the maximal
newline-free prefix of the remainder, and the second branch requires a
`sortby` token and no interior newline. -/
def checkStrDefault (s : String) : Option String × Bool × Bool :=
  let ll := lowerL s.toList
  match stdBranch1 ll with
  | some (i, g2, rest) =>
    if g2 then
      if stripL (ll.take (i + 4)) = "cql.".toList ∧
          ((rest.takeWhile (fun c => !(c == '\n'))).isEmpty ∨
            ("sortby".toList).isPrefixOf (stripL (rest.takeWhile (fun c => !(c == '\n'))))) then
        (Option.none, true, true)
      else (Option.none, false, false)
    else (customOf s, true, false)
  | Option.none =>
    if validTail ll && containsTok ("sortby".toList) ll then (customOf s, true, false)
    else (Option.none, false, false)

inductive SortTy
  | unsorted
  | nonstandard
  | ascending
  | descending
deriving DecidableEq, Repr

/-- The `((?:asc)|(?:desc))` group: ordered alternation at the head of `r`. -/
def ascDescOf (r : List Char) : Option SortTy :=
  if ("asc".toList).isPrefixOf r then some SortTy.ascending
  else if ("desc".toList).isPrefixOf r then some SortTy.descending
  else Option.none

/-- The anchor tail
`(?:\s+id(?:(?:(?:\/sort\.)|\s+)?((?:asc)|(?:desc))(?:ending)?)?)?.*$` of
`_sort_re` under Python newline semantics, in backtracking order: the `\s+`
runs may span newlines, the optional groups are greedy, and each candidate
parse needs `validTail` of what remains; `some` carries the sort type of the
match (group 1 absent means nonstandard), `none` means no parse at this
anchor. -/
def sortTailO1 (t : List Char) : Option SortTy :=
  let w := t.dropWhile isPySpace
  if ¬ w.length = t.length ∧ ("id".toList).isPrefixOf w then
    let r2 := w.drop 2
    let r3 := if ("/sort.".toList).isPrefixOf r2 then r2.drop 6 else r2.dropWhile isPySpace
    match ascDescOf r3 with
    | some g =>
      if validTail r3 then some g
      else if validTail r2 then some SortTy.nonstandard
      else if validTail t then some SortTy.nonstandard
      else Option.none
    | Option.none =>
      if validTail r2 then some SortTy.nonstandard
      else if validTail t then some SortTy.nonstandard
      else Option.none
  else if validTail t then some SortTy.nonstandard
  else Option.none

/-- `_QueryParser._check_str_sort`: evaluates
`_sort_re = ^.*sortby(?:\s+id(?:(?:(?:\/sort\.)|\s+)?((?:asc)|(?:desc))(?:ending)?)?)?.*$`
(IGNORECASE, no DOTALL/MULTILINE: the greedy `.*` keeps the `sortby` anchor
in the first line and backtracks from the last first-line anchor to the
first) and maps group 1 to the sort type as the source does. -/
def checkStrSort (s : String) : SortTy :=
  let ll := lowerL s.toList
  match (((List.range (firstLineLen ll + 1)).filter
      (fun i => occursAt ("sortby".toList) ll i && decide (i + 6 ≤ firstLineLen ll))).reverse).findSome?
      (fun i => sortTailO1 (ll.drop (i + 6))) with
  | some g => g
  | Option.none => SortTy.unsorted

/-! ## The input data model (`QueryType | None`) -/

inductive PyVal
  | str (s : String)
  | int (n : Int)
  | bool (b : Bool)
deriving DecidableEq, Repr

/-- httpx `primitive_value_to_str`. -/
def pyToStr : PyVal → String
  | .str s => s
  | .int n => toString n
  | .bool b => if b then "true" else "false"

inductive DictVal
  | scalar (v : PyVal)
  | seq (vs : List PyVal)
deriving DecidableEq, Repr

/-- Python truthiness of a dict value. -/
def pyTruthy : DictVal → Bool
  | .scalar (.str s) => !(s == "")
  | .scalar (.int n) => !(n == 0)
  | .scalar (.bool b) => b
  | .seq vs => !vs.isEmpty

def isStrScalar : DictVal → Bool
  | .scalar (.str _) => true
  | _ => false

inductive QueryInput
  | noneQ
  | strQ (s : String)
  | dictQ (d : List (String × DictVal))
  | paramsQ (ps : List (String × String))
deriving DecidableEq, Repr

def dictLookup : List (String × DictVal) → String → Option DictVal
  | [], _ => Option.none
  | kv :: rest, k => if kv.1 = k then some kv.2 else dictLookup rest k

/-! ## httpx.QueryParams: insertion-ordered multi-dict -/

abbrev ParamList := List (String × List String)

def getVals : ParamList → String → Option (List String)
  | [], _ => Option.none
  | kv :: rest, k => if kv.1 = k then some kv.2 else getVals rest k

def hasKey (p : ParamList) (k : String) : Bool := (getVals p k).isSome

/-- httpx `QueryParams.set`: replace the key's values with the single value,
keeping the key's position (new keys are appended). -/
def setP (p : ParamList) (k v : String) : ParamList :=
  if hasKey p k then p.map (fun kv => if kv.1 = k then (k, [v]) else kv)
  else p ++ [(k, [v])]

/-- httpx `QueryParams.add`: append the value under the key, keeping the key's
position (new keys are appended). -/
def addP (p : ParamList) (k v : String) : ParamList :=
  if hasKey p k then p.map (fun kv => if kv.1 = k then (kv.1, kv.2 ++ [v]) else kv)
  else p ++ [(k, [v])]

/-- httpx `QueryParams.remove`. -/
def removeP (p : ParamList) (k : String) : ParamList :=
  p.filter (fun kv => !(kv.1 == k))

def lookupPair : List (String × String) → String → Option String
  | [], _ => Option.none
  | kv :: rest, k => if kv.1 = k then some kv.2 else lookupPair rest k

/-- httpx `QueryParams.merge` with a single-valued dict argument:
`q._dict = {**self._dict, **new}` — existing keys keep their position and take
the new value, new keys are appended in the argument's order. -/
def mergeP (p : ParamList) (nw : List (String × String)) : ParamList :=
  (p.map fun kv =>
    match lookupPair nw kv.1 with
    | some v => (kv.1, [v])
    | Option.none => kv)
  ++ ((nw.filter (fun kv => !(hasKey p kv.1))).map (fun kv => (kv.1, [kv.2])))

/-- httpx `params[key]`: first value of the key (callers guard on presence). -/
def getFirst (p : ParamList) (k : String) : String :=
  ((getVals p k).getD []).headD ""

def multiItems (p : ParamList) : List (String × String) :=
  (p.map (fun kv => kv.2.map (fun v => (kv.1, v)))).flatten

/-- httpx `QueryParams(list-of-items)`: group by key, first-occurrence key
order, values in item order. -/
def groupPairs (l : List (String × String)) : ParamList :=
  l.foldl (fun acc kv => addP acc kv.1 kv.2) []

def dictValToStrs : DictVal → List String
  | .scalar v => [pyToStr v]
  | .seq vs => vs.map pyToStr

/-- httpx `QueryParams(dict)`: one item per scalar value, one per sequence
element, coerced to strings. -/
def toParams (d : List (String × DictVal)) : ParamList :=
  d.foldl (fun acc kv => (dictValToStrs kv.2).foldl (fun a v => addP a kv.1 v) acc) []

/-! ## `_QueryParser` checks -/

def reservedKeys : List String := ["query", "filters", "limit", "perPage", "offset", "stats"]

/-- `_QueryParser.additional_params`: the input's parameter set with every
reserved key removed (note: `sort` is not in the source's `_reserved`). -/
def additionalParamsOf : QueryInput → ParamList
  | .dictQ d => reservedKeys.foldl removeP (toParams d)
  | .paramsQ ps => reservedKeys.foldl removeP (groupPairs ps)
  | _ => []

/-- `_QueryParser.check_string`. -/
def checkStringRes : QueryInput → Option String × Option String × Bool × Bool
  | .strQ s => (some s, (checkStrDefault s).1, (checkStrDefault s).2.1, (checkStrDefault s).2.2)
  | _ => (Option.none, Option.none, false, false)

/-- `_QueryParser.check_query`; the error values model the raised
`TypeError`/`ValueError`. -/
def checkQueryRes : QueryInput → Except String (Option String × Option String × Bool × Bool)
  | .dictQ d =>
    match dictLookup d "query" with
    | Option.none => .ok (Option.none, Option.none, false, false)
    | some v =>
      if pyTruthy v then
        match v with
        | .scalar (.str q) => .ok (some q, (checkStrDefault q).1, true, (checkStrDefault q).2.2)
        | _ => .error "Unexpected value for query parameter."
      else .ok (Option.none, Option.none, false, false)
  | .paramsQ ps =>
    if hasKey (groupPairs ps) "query" then
      match (getVals (groupPairs ps) "query").getD [] with
      | [q] => .ok (some q, (checkStrDefault q).1, true, (checkStrDefault q).2.2)
      | _ => .error "Unexpected value for query parameter."
    else .ok (Option.none, Option.none, false, false)
  | _ => .ok (Option.none, Option.none, false, false)

def isStrPy : PyVal → Bool
  | .str _ => true
  | _ => false

/-- `_QueryParser.check_filters`. -/
def checkFiltersRes : QueryInput → Except String (Option (List String))
  | .dictQ d =>
    match dictLookup d "filters" with
    | Option.none => .ok Option.none
    | some (.scalar (.str s)) => .ok (some [s])
    | some (.seq vs) =>
      if vs.all isStrPy then .ok (some (vs.map pyToStr))
      else .error "Unexpected value for filter parameter."
    | some _ => .ok (some [])
  | .paramsQ ps =>
    if hasKey (groupPairs ps) "filters" then
      .ok (some ((getVals (groupPairs ps) "filters").getD []))
    else .ok Option.none
  | _ => .ok Option.none

/-- `_QueryParser.check_erm`: a `sort` key is present in a structured input. -/
def checkErmRes : QueryInput → Bool
  | .dictQ d => (dictLookup d "sort").isSome
  | .paramsQ ps => hasKey (groupPairs ps) "sort"
  | _ => false

def lowerStrip (s : String) : String := String.mk (stripL (lowerL s.toList))

/-- The `sort`-value direction check inside `_QueryParser.check_sort`. -/
def sortKeyDirection (s : String) : SortTy :=
  if lowerStrip s = "id;asc" then SortTy.ascending
  else if lowerStrip s = "id;desc" then SortTy.descending
  else SortTy.unsorted

/-- `_QueryParser.check_sort`. -/
def checkSortRes : QueryInput → Except String SortTy
  | .strQ s => .ok (checkStrSort s)
  | .dictQ d =>
    match dictLookup d "query" with
    | some v =>
      if pyTruthy v then
        match v with
        | .scalar (.str q) => .ok (checkStrSort q)
        | _ => .error "Unexpected value for query parameter."
      else dictSortBranch d
    | Option.none => dictSortBranch d
  | .paramsQ ps =>
    match (getVals (groupPairs ps) "query").bind List.head? with
    | some q => if q = "" then .ok (paramsSortBranch ps) else .ok (checkStrSort q)
    | Option.none => .ok (paramsSortBranch ps)
  | .noneQ => .ok SortTy.unsorted
where
  dictSortBranch (d : List (String × DictVal)) : Except String SortTy :=
    match dictLookup d "sort" with
    | some v =>
      if pyTruthy v then
        match v with
        | .scalar (.str s) => .ok (sortKeyDirection s)
        | _ => .error "Unexpected value for sort parameter."
      else .ok SortTy.unsorted
    | Option.none => .ok SortTy.unsorted
  paramsSortBranch (ps : List (String × String)) : SortTy :=
    match (getVals (groupPairs ps) "sort").bind List.head? with
    | some s => sortKeyDirection s
    | Option.none => SortTy.unsorted

/-! ## `QueryParams.__init__`: classification pipeline -/

structure ParseOut where
  q : List String
  isErm : Option Bool
  isCql : Option Bool
  sortType : SortTy
  isDefault : Bool
  customCql : Option String
  addl : ParamList
deriving DecidableEq, Repr

def initPO (i : QueryInput) : ParseOut :=
  { q := [], isErm := Option.none, isCql := Option.none, sortType := SortTy.unsorted,
    isDefault := false, customCql := Option.none, addl := additionalParamsOf i }

/-- The shared update pattern after `check_string` and `check_query`
(source lines 225-244). -/
def applyTriplePP (r : Option String × Option String × Bool × Bool) (p : ParseOut) : ParseOut :=
  let p1 := match r.1 with
    | some q => { p with q := [q] }
    | Option.none => p
  let p2 := match r.2.1 with
    | some qc => { p1 with customCql := some qc }
    | Option.none => p1
  if r.2.2.1 then { p2 with isErm := some false, isCql := some true, isDefault := r.2.2.2 }
  else p2

/-- The update after `check_filters` (source lines 246-250). -/
def applyFiltersPP (f : Option (List String)) (p : ParseOut) : ParseOut :=
  match f with
  | some fs => { p with q := fs, isErm := some true, isCql := some false }
  | Option.none => p

/-- The parser delegation of `QueryParams.__init__` (source lines 222-256),
with the raises of the checks propagated in source order. -/
def parseInput (i : QueryInput) : Except String ParseOut :=
  let p1 := applyTriplePP (checkStringRes i) (initPO i)
  match checkQueryRes i with
  | .error e => .error e
  | .ok r2 =>
    let p2 := applyTriplePP r2 p1
    match checkFiltersRes i with
    | .error e => .error e
    | .ok f =>
      let p3 := applyFiltersPP f p2
      let p4 := if checkErmRes i then { p3 with isErm := some true, isCql := some false } else p3
      match checkSortRes i with
      | .error e => .error e
      | .ok srt => .ok { p4 with sortType := srt }

structure QPState where
  limit : Int
  query : List String
  isErm : Option Bool
  isCql : Option Bool
  sortType : SortTy
  isDefault : Bool
  customCql : Option String
  additionalParams : ParamList
deriving DecidableEq, Repr

/-- `QueryParams.__init__`: `None` short-circuits to the no-op default state;
anything else runs the parser pipeline. -/
def mkState (i : QueryInput) (lim : Int) : Except String QPState :=
  match i with
  | .noneQ =>
    .ok { limit := lim, query := [], isErm := Option.none, isCql := Option.none,
          sortType := SortTy.unsorted, isDefault := true, customCql := Option.none,
          additionalParams := [] }
  | _ =>
    (parseInput i).map fun po =>
      { limit := lim, query := po.q, isErm := po.isErm, isCql := po.isCql,
        sortType := po.sortType, isDefault := po.isDefault, customCql := po.customCql,
        additionalParams := po.addl }

/-! ## The four views -/

def CQL_ALL_RECORDS : String := "cql.allRecords=1"

/-- The CQL half of `QueryParams.normalized` (source lines 269-280). -/
def normalizedCql (st : QPState) (params : ParamList) : ParamList :=
  if st.isCql ≠ some false then
    mergeP params
      [("query", if st.query.length = 1 then st.query.headD "" else CQL_ALL_RECORDS),
       ("limit", toString st.limit)]
  else params

/-- The ERM half of `QueryParams.normalized` (source lines 282-293). -/
def normalizedErm (st : QPState) (params : ParamList) : ParamList :=
  if st.isErm ≠ some false then
    mergeP (st.query.foldl (fun a q => addP a "filters" q) params)
      [("perPage", toString st.limit), ("stats", "true")]
  else params

/-- `QueryParams.normalized`. -/
def normalizedView (st : QPState) : ParamList :=
  normalizedErm st (normalizedCql st st.additionalParams)

/-- The shared sort-injection steps of `stats` and `offset_paging`
(source lines 303-307 and 324-329). -/
def addSortById (st : QPState) (p : ParamList) : ParamList :=
  let p1 := if hasKey p "query" ∧ st.sortType = SortTy.unsorted then
      setP p "query" (getFirst p "query" ++ " sortBy id")
    else p
  if ¬ hasKey p1 "sort" ∧ st.isErm ≠ some false then addP p1 "sort" "id;asc" else p1

/-- The `stats` limit override: `if key in params: params.set(key, 1)`. -/
def forceOne (p : ParamList) (k : String) : ParamList :=
  if hasKey p k then setP p k "1" else p

/-- `QueryParams.stats`. -/
def statsView (st : QPState) : ParamList :=
  forceOne (forceOne (addSortById st (normalizedView st)) "limit") "perPage"

/-- `QueryParams.offset_paging`. -/
def offsetPaging (st : QPState) (page : Option Int) : ParamList :=
  let params := addSortById st (normalizedView st)
  let params :=
    if st.isErm = Option.none ∧ 100 < st.limit then
      removeP (removeP (removeP params "stats") "sort") "perPage"
    else params
  let lim := if st.isErm = some true then min st.limit 100 else st.limit
  let params := if st.isErm = some true then setP params "perPage" (toString lim) else params
  setP params "offset" (toString ((page.getD 0) * lim))

def dfltCursor (st : QPState) : String :=
  if st.sortType = SortTy.descending then "99999999-9999-9999-9999-999999999999"
  else "00000000-0000-0000-0000-000000000000"

/-- Python `last_id or default`: `None` and the empty string both fall back. -/
def resolveCursor (st : QPState) (lastId : Option String) : String :=
  match lastId with
  | some s => if s = "" then dfltCursor st else s
  | Option.none => dfltCursor st

/-- `QueryParams.id_paging` after the cursor has been resolved. -/
def idPagingCore (st : QPState) (cursor : String) : ParamList :=
  let params := normalizedView st
  let pred := (if st.sortType = SortTy.descending then "id<" else "id>") ++ cursor
  let params :=
    if st.isCql ≠ some false then
      let conj :=
        if ¬ st.isDefault ∧ st.customCql.isSome then " and (" ++ st.customCql.getD "" ++ ")"
        else if ¬ st.isDefault ∧ st.query.length = 1 then " and (" ++ st.query.headD "" ++ ")"
        else ""
      setP params "query"
        (pred ++ conj ++
          (if st.sortType = SortTy.descending then " sortBy id/sort.descending" else " sortBy id"))
    else params
  if st.isErm ≠ some false then
    addP (setP params "sort" (if st.sortType = SortTy.descending then "id;desc" else "id;asc"))
      "filters" pred
  else params

/-- `QueryParams.id_paging`. -/
def idPaging (st : QPState) (lastId : Option String) : ParamList :=
  idPagingCore st (resolveCursor st lastId)

def isOkE {α : Type} : Except String α → Bool
  | .ok _ => true
  | .error _ => false

/-! ## Declarative predicates used to state the claims -/

/-- The raw parameter set of an input before reserved keys are removed. -/
def inputParams : QueryInput → ParamList
  | .dictQ d => toParams d
  | .paramsQ ps => groupPairs ps
  | _ => []

/-- Declarative characterization, under Python newline semantics, of when a
plain string is classified as definitely CQL: the standard-CQL pattern
matches with a first-line `cql.` anchor (`stdBranch1`) and either the
`allrecords` group did not participate or the default-form check passes on
group 1 and the newline-free prefix of the group-3 remainder; or there is no
such match but the string contains a `sortby` token and no interior newline.
A `sortby` token alone is neither necessary nor sufficient. -/
def strCqlSpec (s : String) : Bool :=
  let ll := lowerL s.toList
  match stdBranch1 ll with
  | some (i, g2, rest) =>
    if g2 then
      if stripL (ll.take (i + 4)) = "cql.".toList ∧
          ((rest.takeWhile (fun c => !(c == '\n'))).isEmpty ∨
            ("sortby".toList).isPrefixOf (stripL (rest.takeWhile (fun c => !(c == '\n'))))) then
        true
      else false
    else true
  | Option.none => validTail ll && containsTok ("sortby".toList) ll

/-- Declarative characterization of the construction-time raises for a dict
input: a truthy non-string `query` value, a `filters` sequence with a
non-string element, or (when no truthy `query` value shadows it) a truthy
non-string `sort` value. -/
def errCondDict (d : List (String × DictVal)) : Bool :=
  (match dictLookup d "query" with
   | some v => pyTruthy v && !(isStrScalar v)
   | Option.none => false)
  || (match dictLookup d "filters" with
      | some (.seq vs) => !(vs.all isStrPy)
      | _ => false)
  || ((match dictLookup d "query" with
       | some v => !(pyTruthy v)
       | Option.none => true)
      && (match dictLookup d "sort" with
          | some v => pyTruthy v && !(isStrScalar v)
          | Option.none => false))

/-- Declarative characterization of every construction-time raise. -/
def errCond : QueryInput → Bool
  | .noneQ => false
  | .strQ _ => false
  | .dictQ d => errCondDict d
  | .paramsQ ps =>
    hasKey (groupPairs ps) "query" &&
      !(((getVals (groupPairs ps) "query").getD []).length == 1)

/-! ## Concrete states used by the witnesses -/

/-- The state built from input `None` with limit 100. -/
def stNone100 : QPState :=
  { limit := 100, query := [], isErm := Option.none, isCql := Option.none,
    sortType := SortTy.unsorted, isDefault := true, customCql := Option.none,
    additionalParams := [] }

/-- The state built from input `None` with limit 1000. -/
def stNone1000 : QPState :=
  { limit := 1000, query := [], isErm := Option.none, isCql := Option.none,
    sortType := SortTy.unsorted, isDefault := true, customCql := Option.none,
    additionalParams := [] }

/-- The state built from input `None` with limit 0. -/
def stNone0 : QPState :=
  { limit := 0, query := [], isErm := Option.none, isCql := Option.none,
    sortType := SortTy.unsorted, isDefault := true, customCql := Option.none,
    additionalParams := [] }

/-- The dict input `{"sort": "x", "extra": 7}` used by the C4 witness. -/
def c4Input : List (String × DictVal) := [("sort", .scalar (.str "x")), ("extra", .scalar (.int 7))]

/-- The state built from `c4Input` with limit 100. -/
def stC4 : QPState :=
  { limit := 100, query := [], isErm := some true, isCql := some false,
    sortType := SortTy.unsorted, isDefault := false, customCql := Option.none,
    additionalParams := [("sort", ["x"]), ("extra", ["7"])] }

/-- The state built from the plain string `"cql."` with limit 100. -/
def stCqlDot : QPState :=
  { limit := 100, query := ["cql."], isErm := some false, isCql := some true,
    sortType := SortTy.unsorted, isDefault := false, customCql := Option.none,
    additionalParams := [] }

/-! ## Lemmas about the parameter operations -/

theorem getVals_eq_none (p : ParamList) (k : String) (h : hasKey p k = false) :
    getVals p k = Option.none := by
  cases hx : getVals p k with
  | none => rfl
  | some vs => unfold hasKey at h; rw [hx] at h; simp at h

theorem getVals_append (a b : ParamList) (k : String) :
    getVals (a ++ b) k =
      match getVals a k with
      | some vs => some vs
      | Option.none => getVals b k := by
  induction a with
  | nil => rfl
  | cons kv rest ih =>
    by_cases h : kv.1 = k <;> simp [getVals, h, ih]

theorem getVals_map_set (p : ParamList) (k v : String) :
    getVals (p.map (fun kv => if kv.1 = k then (k, [v]) else kv)) k
      = (getVals p k).map (fun _ => [v]) := by
  induction p with
  | nil => rfl
  | cons kv rest ih =>
    by_cases h : kv.1 = k <;> simp [getVals, h, ih]

theorem getVals_map_set_ne (p : ParamList) (k' v k : String) (h : ¬ k' = k) :
    getVals (p.map (fun kv => if kv.1 = k' then (k', [v]) else kv)) k = getVals p k := by
  induction p with
  | nil => rfl
  | cons kv rest ih =>
    have h4 : ¬ k = k' := fun hh => h hh.symm
    by_cases h2 : kv.1 = k'
    · have h3 : ¬ kv.1 = k := by rw [h2]; exact h
      simp [getVals, h2, h, h3, h4, ih]
    · by_cases h3 : kv.1 = k <;> simp [getVals, h2, h3, h4, ih]

theorem getVals_setP_self (p : ParamList) (k v : String) :
    getVals (setP p k v) k = some [v] := by
  unfold setP
  by_cases h : hasKey p k = true
  · rw [if_pos h, getVals_map_set]
    cases hx : getVals p k with
    | none => unfold hasKey at h; rw [hx] at h; simp at h
    | some vs => rfl
  · rw [if_neg h, getVals_append, getVals_eq_none p k (by simpa using h)]
    simp [getVals]

theorem getVals_setP_ne (p : ParamList) (k' v k : String) (h : ¬ k' = k) :
    getVals (setP p k' v) k = getVals p k := by
  unfold setP
  by_cases hh : hasKey p k' = true
  · rw [if_pos hh, getVals_map_set_ne p k' v k h]
  · rw [if_neg hh, getVals_append]
    cases hx : getVals p k with
    | none => simp [getVals, h]
    | some vs => rfl

theorem getVals_map_add (p : ParamList) (k v : String) :
    getVals (p.map (fun kv => if kv.1 = k then (kv.1, kv.2 ++ [v]) else kv)) k
      = (getVals p k).map (fun vs => vs ++ [v]) := by
  induction p with
  | nil => rfl
  | cons kv rest ih =>
    by_cases h : kv.1 = k <;> simp [getVals, h, ih]

theorem getVals_map_add_ne (p : ParamList) (k' v k : String) (h : ¬ k' = k) :
    getVals (p.map (fun kv => if kv.1 = k' then (kv.1, kv.2 ++ [v]) else kv)) k = getVals p k := by
  induction p with
  | nil => rfl
  | cons kv rest ih =>
    have h4 : ¬ k = k' := fun hh => h hh.symm
    by_cases h2 : kv.1 = k'
    · have h3 : ¬ kv.1 = k := by rw [h2]; exact h
      simp [getVals, h2, h, h3, h4, ih]
    · by_cases h3 : kv.1 = k <;> simp [getVals, h2, h3, h4, ih]

theorem getVals_addP_self (p : ParamList) (k v : String) :
    getVals (addP p k v) k = some ((getVals p k).getD [] ++ [v]) := by
  unfold addP
  by_cases h : hasKey p k = true
  · rw [if_pos h, getVals_map_add]
    cases hx : getVals p k with
    | none => unfold hasKey at h; rw [hx] at h; simp at h
    | some vs => rfl
  · rw [if_neg h, getVals_append, getVals_eq_none p k (by simpa using h)]
    simp [getVals]

theorem getVals_addP_ne (p : ParamList) (k' v k : String) (h : ¬ k' = k) :
    getVals (addP p k' v) k = getVals p k := by
  unfold addP
  by_cases hh : hasKey p k' = true
  · rw [if_pos hh, getVals_map_add_ne p k' v k h]
  · rw [if_neg hh, getVals_append]
    cases hx : getVals p k with
    | none => simp [getVals, h]
    | some vs => rfl

theorem getVals_removeP_self (p : ParamList) (k : String) :
    getVals (removeP p k) k = Option.none := by
  induction p with
  | nil => rfl
  | cons kv rest ih =>
    by_cases h : kv.1 = k
    · simpa [removeP, List.filter_cons, h] using ih
    · simpa [removeP, List.filter_cons, h, getVals] using ih

theorem getVals_removeP_ne (p : ParamList) (k' k : String) (h : ¬ k' = k) :
    getVals (removeP p k') k = getVals p k := by
  induction p with
  | nil => rfl
  | cons kv rest ih =>
    have h4 : ¬ k = k' := fun hh => h hh.symm
    by_cases h2 : kv.1 = k'
    · have h3 : ¬ kv.1 = k := by rw [h2]; exact h
      simp only [removeP, List.filter_cons] at ih ⊢
      simp [h2, h3, h, h4, getVals, ih]
    · simp only [removeP, List.filter_cons] at ih ⊢
      by_cases h3 : kv.1 = k <;> simp [h2, h3, h, h4, getVals, ih]

theorem getVals_map_merge (p : ParamList) (nw : List (String × String)) (k : String) :
    getVals (p.map (fun kv =>
        match lookupPair nw kv.1 with
        | some v => (kv.1, [v])
        | Option.none => kv)) k
      = match getVals p k, lookupPair nw k with
        | some _, some v => some [v]
        | some vs, Option.none => some vs
        | Option.none, _ => Option.none := by
  induction p with
  | nil => rfl
  | cons kv rest ih =>
    by_cases h : kv.1 = k
    · cases hl : lookupPair nw k with
      | none => simp [getVals, h, hl]
      | some v => simp [getVals, h, hl]
    · cases hl : lookupPair nw kv.1 with
      | none => simp [getVals, h, hl, ih]
      | some v => simp [getVals, h, hl, ih]

theorem getVals_merge_newpart (p : ParamList) (nw : List (String × String)) (k : String)
    (hp : hasKey p k = false) :
    getVals ((nw.filter (fun kv => !(hasKey p kv.1))).map (fun kv => (kv.1, [kv.2]))) k
      = (lookupPair nw k).map (fun v => [v]) := by
  induction nw with
  | nil => rfl
  | cons kv rest ih =>
    by_cases h : kv.1 = k
    · simp [List.filter, h, hp, getVals, lookupPair]
    · by_cases h2 : hasKey p kv.1 = true <;>
        simp [List.filter, h, h2, getVals, lookupPair, ih]

theorem getVals_mergeP (p : ParamList) (nw : List (String × String)) (k : String) :
    getVals (mergeP p nw) k =
      match lookupPair nw k with
      | some v => some [v]
      | Option.none => getVals p k := by
  unfold mergeP
  rw [getVals_append, getVals_map_merge]
  cases hv : getVals p k with
  | some vs =>
    cases hl : lookupPair nw k with
    | some v => rfl
    | none => rfl
  | none =>
    have hp : hasKey p k = false := by unfold hasKey; rw [hv]; rfl
    rw [getVals_merge_newpart p nw k hp]
    cases hl : lookupPair nw k with
    | some v => rfl
    | none => rfl

theorem getVals_foldl_addP_ne (qs : List String) (p : ParamList) (key k : String)
    (h : ¬ key = k) :
    getVals (qs.foldl (fun a q => addP a key q) p) k = getVals p k := by
  induction qs generalizing p with
  | nil => rfl
  | cons q rest ih => rw [List.foldl_cons, ih, getVals_addP_ne p key q k h]

theorem hasKey_setP_ne (p : ParamList) (k' v k : String) (h : ¬ k' = k) :
    hasKey (setP p k' v) k = hasKey p k := by
  unfold hasKey
  rw [getVals_setP_ne p k' v k h]

theorem hasKey_removeP_self (p : ParamList) (k : String) :
    hasKey (removeP p k) k = false := by
  unfold hasKey
  rw [getVals_removeP_self]
  rfl

theorem hasKey_removeP_ne (p : ParamList) (k' k : String) (h : ¬ k' = k) :
    hasKey (removeP p k') k = hasKey p k := by
  unfold hasKey
  rw [getVals_removeP_ne p k' k h]

/-! ## Lemmas about the views and the construction pipeline -/

theorem getVals_normalizedCql_limit (st : QPState) (params : ParamList)
    (h : st.isCql ≠ some false) :
    getVals (normalizedCql st params) "limit" = some [toString st.limit] := by
  unfold normalizedCql
  rw [if_pos h, getVals_mergeP]
  simp [lookupPair]

theorem getVals_normalizedErm_other (st : QPState) (params : ParamList) (k : String)
    (hk1 : ¬ "filters" = k) (hk2 : ¬ "perPage" = k) (hk3 : ¬ "stats" = k) :
    getVals (normalizedErm st params) k = getVals params k := by
  unfold normalizedErm
  by_cases he : st.isErm ≠ some false
  · rw [if_pos he, getVals_mergeP]
    simp only [lookupPair]
    rw [if_neg hk2, if_neg hk3, getVals_foldl_addP_ne _ _ _ _ hk1]
  · rw [if_neg he]

theorem getVals_normalized_limit (st : QPState) (h : st.isCql ≠ some false) :
    getVals (normalizedView st) "limit" = some [toString st.limit] := by
  unfold normalizedView
  rw [getVals_normalizedErm_other st _ "limit" (by decide) (by decide) (by decide)]
  exact getVals_normalizedCql_limit st _ h

theorem getVals_normalized_perPage (st : QPState) (h : st.isErm ≠ some false) :
    getVals (normalizedView st) "perPage" = some [toString st.limit] := by
  unfold normalizedView normalizedErm
  rw [if_pos h, getVals_mergeP]
  simp [lookupPair]

theorem getVals_offsetPaging_offset (st : QPState) (page : Option Int) :
    getVals (offsetPaging st page) "offset"
      = some [toString ((page.getD 0) *
          (if st.isErm = some true then min st.limit 100 else st.limit))] := by
  simp only [offsetPaging]
  exact getVals_setP_self _ _ _

theorem getVals_forceOne_self (p : ParamList) (k : String) :
    getVals (forceOne p k) k = Option.none ∨ getVals (forceOne p k) k = some ["1"] := by
  unfold forceOne
  by_cases h : hasKey p k = true
  · right
    rw [if_pos h]
    exact getVals_setP_self p k "1"
  · left
    rw [if_neg h]
    exact getVals_eq_none p k (by simpa using h)

theorem getVals_forceOne_ne (p : ParamList) (k' k : String) (h : ¬ k' = k) :
    getVals (forceOne p k') k = getVals p k := by
  unfold forceOne
  by_cases hh : hasKey p k' = true
  · rw [if_pos hh, getVals_setP_ne p k' "1" k h]
  · rw [if_neg hh]

theorem isOkE_map {α β : Type} (f : α → β) (e : Except String α) :
    isOkE (e.map f) = isOkE e := by
  cases e <;> rfl

theorem mkState_limit (i : QueryInput) (lim : Int) (st : QPState)
    (h : mkState i lim = .ok st) : st.limit = lim := by
  cases i with
  | noneQ =>
    simp only [mkState] at h
    injection h with h2
    rw [← h2]
  | strQ s =>
    simp only [mkState] at h
    cases hp : parseInput (.strQ s) with
    | error e => rw [hp] at h; simp [Except.map] at h
    | ok po =>
      rw [hp] at h
      simp only [Except.map] at h
      injection h with h2
      rw [← h2]
  | dictQ d =>
    simp only [mkState] at h
    cases hp : parseInput (.dictQ d) with
    | error e => rw [hp] at h; simp [Except.map] at h
    | ok po =>
      rw [hp] at h
      simp only [Except.map] at h
      injection h with h2
      rw [← h2]
  | paramsQ ps =>
    simp only [mkState] at h
    cases hp : parseInput (.paramsQ ps) with
    | error e => rw [hp] at h; simp [Except.map] at h
    | ok po =>
      rw [hp] at h
      simp only [Except.map] at h
      injection h with h2
      rw [← h2]

theorem flagInv_applyTriple (r : Option String × Option String × Bool × Bool) (p : ParseOut)
    (h : ¬ (p.isCql = some true ∧ p.isErm = some true)) :
    ¬ ((applyTriplePP r p).isCql = some true ∧ (applyTriplePP r p).isErm = some true) := by
  unfold applyTriplePP
  rcases r with ⟨q, qc, b, dflt⟩
  cases b with
  | true =>
    rcases q with _ | q0 <;> rcases qc with _ | qc0 <;> simp
  | false =>
    rcases q with _ | q0 <;> rcases qc with _ | qc0 <;> simpa using h

theorem flagInv_applyFilters (f : Option (List String)) (p : ParseOut)
    (h : ¬ (p.isCql = some true ∧ p.isErm = some true)) :
    ¬ ((applyFiltersPP f p).isCql = some true ∧ (applyFiltersPP f p).isErm = some true) := by
  unfold applyFiltersPP
  rcases f with _ | fs
  · simpa using h
  · simp

theorem flagInv_ermStep (b : Bool) (p : ParseOut)
    (h : ¬ (p.isCql = some true ∧ p.isErm = some true)) :
    ¬ (((if b then { p with isErm := some true, isCql := some false } else p) : ParseOut).isCql
          = some true
        ∧ ((if b then { p with isErm := some true, isCql := some false } else p) : ParseOut).isErm
          = some true) := by
  cases b with
  | true => simp
  | false => simpa using h

theorem flagInv_parseInput (i : QueryInput) (po : ParseOut) (h : parseInput i = .ok po) :
    ¬ (po.isCql = some true ∧ po.isErm = some true) := by
  unfold parseInput at h
  rcases hq : checkQueryRes i with e | r2 <;> rw [hq] at h
  · simp at h
  · rcases hf : checkFiltersRes i with e2 | f <;> rw [hf] at h
    · simp at h
    · rcases hs : checkSortRes i with e3 | srt <;> rw [hs] at h
      · simp at h
      · injection h with h2
        rw [← h2]
        have h0 : ¬ ((initPO i).isCql = some true ∧ (initPO i).isErm = some true) := by
          simp [initPO]
        have h1 := flagInv_applyTriple (checkStringRes i) _ h0
        have h2 := flagInv_applyTriple r2 _ h1
        have h3 := flagInv_applyFilters f _ h2
        have h4 := flagInv_ermStep (checkErmRes i) _ h3
        simpa using h4

theorem isOkE_parseInput (i : QueryInput) :
    isOkE (parseInput i)
      = (isOkE (checkQueryRes i) && isOkE (checkFiltersRes i) && isOkE (checkSortRes i)) := by
  unfold parseInput
  rcases hq : checkQueryRes i with e | r2 <;>
    rcases hf : checkFiltersRes i with e2 | f <;>
    rcases hs : checkSortRes i with e3 | srt <;>
    simp [hq, hf, hs, isOkE]

theorem isOkE_checkQueryRes_dict (d : List (String × DictVal)) :
    isOkE (checkQueryRes (.dictQ d))
      = !(match dictLookup d "query" with
          | some v => pyTruthy v && !(isStrScalar v)
          | Option.none => false) := by
  rcases hq : dictLookup d "query" with _ | v
  · simp [checkQueryRes, hq, isOkE]
  · by_cases ht : pyTruthy v = true
    · cases v with
      | scalar pv =>
        cases pv with
        | str s => simp [checkQueryRes, hq, ht, isOkE, isStrScalar]
        | int n => simp [checkQueryRes, hq, ht, isOkE, isStrScalar]
        | bool b => simp [checkQueryRes, hq, ht, isOkE, isStrScalar]
      | seq vs => simp [checkQueryRes, hq, ht, isOkE, isStrScalar]
    · have ht2 : pyTruthy v = false := by simpa using ht
      simp [checkQueryRes, hq, ht2, isOkE]

theorem isOkE_checkFiltersRes_dict (d : List (String × DictVal)) :
    isOkE (checkFiltersRes (.dictQ d))
      = !(match dictLookup d "filters" with
          | some (.seq vs) => !(vs.all isStrPy)
          | _ => false) := by
  rcases hf : dictLookup d "filters" with _ | v
  · simp [checkFiltersRes, hf, isOkE]
  · cases v with
    | scalar pv =>
      cases pv with
      | str s => simp [checkFiltersRes, hf, isOkE]
      | int n => simp [checkFiltersRes, hf, isOkE]
      | bool b => simp [checkFiltersRes, hf, isOkE]
    | seq vs =>
      by_cases ha : vs.all isStrPy = true
      · simp [checkFiltersRes, hf, ha, isOkE]
      · have ha2 : vs.all isStrPy = false := by simpa using ha
        simp [checkFiltersRes, hf, ha2, isOkE]

theorem isOkE_dictSortBranch (d : List (String × DictVal)) :
    isOkE (checkSortRes.dictSortBranch d)
      = !(match dictLookup d "sort" with
          | some v => pyTruthy v && !(isStrScalar v)
          | Option.none => false) := by
  rcases hs : dictLookup d "sort" with _ | v
  · simp [checkSortRes.dictSortBranch, hs, isOkE]
  · by_cases ht : pyTruthy v = true
    · cases v with
      | scalar pv =>
        cases pv with
        | str s => simp [checkSortRes.dictSortBranch, hs, ht, isOkE, isStrScalar]
        | int n => simp [checkSortRes.dictSortBranch, hs, ht, isOkE, isStrScalar]
        | bool b => simp [checkSortRes.dictSortBranch, hs, ht, isOkE, isStrScalar]
      | seq vs => simp [checkSortRes.dictSortBranch, hs, ht, isOkE, isStrScalar]
    · have ht2 : pyTruthy v = false := by simpa using ht
      simp [checkSortRes.dictSortBranch, hs, ht2, isOkE]

theorem isOkE_checkSortRes_dict (d : List (String × DictVal)) :
    isOkE (checkSortRes (.dictQ d))
      = !(match dictLookup d "query" with
          | some v =>
            if pyTruthy v then !(isStrScalar v)
            else
              (match dictLookup d "sort" with
               | some w => pyTruthy w && !(isStrScalar w)
               | Option.none => false)
          | Option.none =>
            (match dictLookup d "sort" with
             | some w => pyTruthy w && !(isStrScalar w)
             | Option.none => false)) := by
  rcases hq : dictLookup d "query" with _ | v
  · simp only [checkSortRes, hq]
    rw [isOkE_dictSortBranch]
  · by_cases ht : pyTruthy v = true
    · cases v with
      | scalar pv =>
        cases pv with
        | str s => simp [checkSortRes, hq, ht, isOkE, isStrScalar]
        | int n => simp [checkSortRes, hq, ht, isOkE, isStrScalar]
        | bool b => simp [checkSortRes, hq, ht, isOkE, isStrScalar]
      | seq vs => simp [checkSortRes, hq, ht, isOkE, isStrScalar]
    · have ht2 : pyTruthy v = false := by simpa using ht
      simp only [checkSortRes, hq, ht2, Bool.false_eq_true, if_false]
      rw [isOkE_dictSortBranch]

theorem isOkE_checkQueryRes_params (ps : List (String × String)) :
    isOkE (checkQueryRes (.paramsQ ps))
      = !(hasKey (groupPairs ps) "query" &&
          !(((getVals (groupPairs ps) "query").getD []).length == 1)) := by
  by_cases h : hasKey (groupPairs ps) "query" = true
  · simp only [checkQueryRes, h, if_true]
    rcases hl : (getVals (groupPairs ps) "query").getD [] with _ | ⟨q, _ | ⟨q2, rest⟩⟩
    · simp [isOkE, hl]
    · simp [isOkE, hl]
    · simp only [isOkE, hl, h]
      simp [beq_iff_eq]
  · have h2 : hasKey (groupPairs ps) "query" = false := by simpa using h
    simp [checkQueryRes, h2, isOkE]

theorem isOkE_checkFiltersRes_params (ps : List (String × String)) :
    isOkE (checkFiltersRes (.paramsQ ps)) = true := by
  by_cases h : hasKey (groupPairs ps) "filters" = true <;>
    simp [checkFiltersRes, h, isOkE]

theorem isOkE_checkSortRes_params (ps : List (String × String)) :
    isOkE (checkSortRes (.paramsQ ps)) = true := by
  rcases hq : (getVals (groupPairs ps) "query").bind List.head? with _ | q
  · simp [checkSortRes, hq, isOkE]
  · by_cases he : q = "" <;> simp [checkSortRes, hq, he, isOkE]

theorem foldl_removeP_eq_filter (ks : List String) (p : ParamList) :
    ks.foldl removeP p = p.filter (fun kv => !(ks.contains kv.1)) := by
  induction ks generalizing p with
  | nil => simp
  | cons k rest ih =>
    rw [List.foldl_cons, ih, removeP, List.filter_filter]
    apply List.filter_congr
    intro kv _
    simp only [List.contains_cons]
    rw [Bool.not_or, Bool.and_comm]

theorem checkStrDefault_isCql_eq_spec (s : String) :
    (checkStrDefault s).2.1 = strCqlSpec s := by
  unfold checkStrDefault strCqlSpec
  rcases h : stdBranch1 (lowerL s.toList) with _ | ⟨i, g2, rest⟩
  · simp only [h]
    by_cases hc : (validTail (lowerL s.toList)
        && containsTok ("sortby".toList) (lowerL s.toList)) = true
    · rw [if_pos hc]
      exact hc.symm
    · rw [if_neg hc]
      have hc2 : (validTail (lowerL s.toList)
          && containsTok ("sortby".toList) (lowerL s.toList)) = false := by simpa using hc
      exact hc2.symm
  · simp only [h]
    cases g2 with
    | false => rfl
    | true =>
      by_cases hcond : stripL ((lowerL s.toList).take (i + 4)) = "cql.".toList ∧
          ((rest.takeWhile (fun c => !(c == '\n'))).isEmpty = true ∨
            ("sortby".toList).isPrefixOf
              (stripL (rest.takeWhile (fun c => !(c == '\n')))) = true)
      · rw [if_pos hcond, if_pos hcond]
        rfl
      · rw [if_neg hcond, if_neg hcond]
        rfl

theorem mkState_strQ_fields (s : String) (lim : Int) (st : QPState)
    (h : mkState (.strQ s) lim = .ok st) :
    st.isCql = (if (checkStrDefault s).2.1 = true then some true else Option.none)
    ∧ st.isErm = (if (checkStrDefault s).2.1 = true then some false else Option.none)
    ∧ st.query = [s] ∧ st.additionalParams = [] ∧ st.limit = lim := by
  have hp : parseInput (.strQ s)
      = .ok { applyTriplePP (checkStringRes (.strQ s)) (initPO (.strQ s)) with
              sortType := checkStrSort s } := by
    rfl
  simp only [mkState, hp, Except.map] at h
  injection h with h2
  rw [← h2]
  rcases hc : (checkStrDefault s).1 with _ | qc <;>
    by_cases hb : (checkStrDefault s).2.1 = true <;>
    simp [applyTriplePP, checkStringRes, initPO, additionalParamsOf, hc, hb]

theorem strAppend_assoc (a b c : String) : a ++ b ++ c = a ++ (b ++ c) := by
  rcases a with ⟨la⟩
  rcases b with ⟨lb⟩
  rcases c with ⟨lc⟩
  show String.mk (la ++ lb ++ lc) = String.mk (la ++ (lb ++ lc))
  rw [List.append_assoc]

theorem hasKey_foldl_addP (qs : List String) (p : ParamList) (key : String)
    (hp : hasKey p key = true) :
    hasKey (qs.foldl (fun a q => addP a key q) p) key = true := by
  induction qs generalizing p with
  | nil => exact hp
  | cons q rest ih =>
    rw [List.foldl_cons]
    apply ih
    unfold hasKey
    rw [getVals_addP_self]
    rfl

theorem getVals_normalized_query (st : QPState) (h : st.isCql ≠ some false) :
    getVals (normalizedView st) "query"
      = some [if st.query.length = 1 then st.query.headD "" else CQL_ALL_RECORDS] := by
  unfold normalizedView
  rw [getVals_normalizedErm_other st _ "query" (by decide) (by decide) (by decide)]
  unfold normalizedCql
  rw [if_pos h, getVals_mergeP]
  simp [lookupPair]

theorem getVals_normalized_stats (st : QPState) (h : st.isErm ≠ some false) :
    getVals (normalizedView st) "stats" = some ["true"] := by
  unfold normalizedView normalizedErm
  rw [if_pos h, getVals_mergeP]
  simp [lookupPair]

theorem hasKey_normalized_filters (st : QPState) (he : st.isErm ≠ some false)
    (hq : st.query ≠ []) :
    hasKey (normalizedView st) "filters" = true := by
  unfold normalizedView normalizedErm
  rw [if_pos he]
  unfold hasKey
  rw [getVals_mergeP]
  simp only [lookupPair]
  rw [if_neg (by decide), if_neg (by decide)]
  rcases hq0 : st.query with _ | ⟨q0, rest⟩
  · exact absurd hq0 hq
  · rw [List.foldl_cons]
    have := hasKey_foldl_addP rest (addP (normalizedCql st st.additionalParams) "filters" q0)
      "filters" (by unfold hasKey; rw [getVals_addP_self]; rfl)
    unfold hasKey at this
    cases hx : getVals (rest.foldl (fun a q => addP a "filters" q)
        (addP (normalizedCql st st.additionalParams) "filters" q0)) "filters" with
    | none => rw [hx] at this; simp at this
    | some vs => rfl

/-! ## Claim theorems -/

/-- C1: for every QueryInput whose passthrough set is empty and for every
limit, the parameter set returned by `stats()` maps the key `limit`, wherever
present, to the single value `1` (hence at most 1), and likewise the key
`perPage`. -/
theorem c1_stats_limit_perPage_one (i : QueryInput) (lim : Int) (st : QPState)
    (h : mkState i lim = .ok st) (hpass : st.additionalParams = []) :
    (getVals (statsView st) "limit" = Option.none
      ∨ getVals (statsView st) "limit" = some ["1"])
    ∧ (getVals (statsView st) "perPage" = Option.none
      ∨ getVals (statsView st) "perPage" = some ["1"]) := by
  constructor
  · have hd := getVals_forceOne_self (addSortById st (normalizedView st)) "limit"
    unfold statsView
    rw [getVals_forceOne_ne _ "perPage" "limit" (by decide)]
    exact hd
  · unfold statsView
    exact getVals_forceOne_self _ "perPage"

/-- Witness for C1 at the concrete input `None` with limit 100. -/
theorem c1_witness :
    (getVals (statsView stNone100) "limit" = Option.none
      ∨ getVals (statsView stNone100) "limit" = some ["1"])
    ∧ (getVals (statsView stNone100) "perPage" = Option.none
      ∨ getVals (statsView stNone100) "perPage" = some ["1"]) :=
  c1_stats_limit_perPage_one .noneQ 100 stNone100 rfl rfl

/-- C2: `offset_paging(page=N)` always sets `offset` to `N * effective_limit`,
where the effective limit is `min(limit, 100)` exactly when the input was
affirmatively classified as ERM and the raw limit otherwise; with the page
argument omitted the offset is 0. -/
theorem c2_offset_paging_offset (i : QueryInput) (lim : Int) (st : QPState)
    (h : mkState i lim = .ok st) (page : Int) :
    getVals (offsetPaging st (some page)) "offset"
      = some [toString (page * (if st.isErm = some true then min lim 100 else lim))]
    ∧ getVals (offsetPaging st Option.none) "offset" = some [toString (0 : Int)] := by
  have hl := mkState_limit i lim st h
  constructor
  · rw [getVals_offsetPaging_offset, hl]
    simp
  · rw [getVals_offsetPaging_offset]
    simp

/-- Witness for C2 at the concrete input `None` with limit 100 and page 3. -/
theorem c2_witness :
    getVals (offsetPaging stNone100 (some 3)) "offset"
      = some [toString ((3 : Int) * (if stNone100.isErm = some true then min 100 100 else 100))]
    ∧ getVals (offsetPaging stNone100 Option.none) "offset" = some [toString (0 : Int)] :=
  c2_offset_paging_offset .noneQ 100 stNone100 rfl 3

/-- C7: for input `None` and limit 100, `stats()` is exactly the parameter
collection encoding to
`query=cql.allRecords=1 sortBy id&sort=id;asc&limit=1&perPage=1&stats=true`
(the first conjunct gives the generated items in insertion order, the second
conjunct identifies them, as a multiset of key-value pairs — httpx equality —
with the claimed encoding). -/
theorem c7_stats_of_none :
    ((mkState .noneQ 100).toOption.map (fun st => multiItems (statsView st))
      = some [("query", "cql.allRecords=1 sortBy id"), ("limit", "1"), ("perPage", "1"),
              ("stats", "true"), ("sort", "id;asc")])
    ∧ (Multiset.ofList
        [("query", "cql.allRecords=1 sortBy id"), ("limit", "1"), ("perPage", "1"),
         ("stats", "true"), ("sort", "id;asc")]
      = Multiset.ofList
        [("query", "cql.allRecords=1 sortBy id"), ("sort", "id;asc"), ("limit", "1"),
         ("perPage", "1"), ("stats", "true")]) := by
  exact ⟨rfl, by decide⟩

/-- C8: when both dialect flags are still unknown and the limit exceeds 100,
`offset_paging` carries none of the keys `stats`, `sort`, `perPage`. -/
theorem c8_unknown_dialect_oversized (i : QueryInput) (lim : Int) (st : QPState)
    (page : Option Int) (h : mkState i lim = .ok st) (hcql : st.isCql = Option.none)
    (herm : st.isErm = Option.none) (hlim : 100 < lim) :
    hasKey (offsetPaging st page) "stats" = false
    ∧ hasKey (offsetPaging st page) "sort" = false
    ∧ hasKey (offsetPaging st page) "perPage" = false := by
  have hl := mkState_limit i lim st h
  have hcond : st.isErm = Option.none ∧ 100 < st.limit := ⟨herm, by rw [hl]; exact hlim⟩
  have hne : ¬ (st.isErm = some true) := by rw [herm]; simp
  simp only [offsetPaging]
  rw [if_pos hcond, if_neg hne]
  refine ⟨?_, ?_, ?_⟩
  · rw [hasKey_setP_ne _ "offset" _ "stats" (by decide),
        hasKey_removeP_ne _ "perPage" "stats" (by decide),
        hasKey_removeP_ne _ "sort" "stats" (by decide),
        hasKey_removeP_self]
  · rw [hasKey_setP_ne _ "offset" _ "sort" (by decide),
        hasKey_removeP_ne _ "perPage" "sort" (by decide),
        hasKey_removeP_self]
  · rw [hasKey_setP_ne _ "offset" _ "perPage" (by decide),
        hasKey_removeP_self]

/-- Witness for C8 at the concrete input `None` with limit 1000. -/
theorem c8_witness :
    hasKey (offsetPaging stNone1000 Option.none) "stats" = false
    ∧ hasKey (offsetPaging stNone1000 Option.none) "sort" = false
    ∧ hasKey (offsetPaging stNone1000 Option.none) "perPage" = false :=
  c8_unknown_dialect_oversized .noneQ 1000 stNone1000 Option.none rfl rfl rfl (by decide)

/-- C9: the CQL flag and the ERM flag are never simultaneously true — after
construction (first conjunct) and after each of the ordered precedence steps
of construction (remaining conjuncts: the string/query update, the filters
update, and the sort-key ERM update each preserve the exclusion). -/
theorem c9_dialect_flags_exclusive :
    (∀ (i : QueryInput) (lim : Int) (st : QPState), mkState i lim = .ok st →
        ¬ (st.isCql = some true ∧ st.isErm = some true))
    ∧ (∀ (r : Option String × Option String × Bool × Bool) (p : ParseOut),
        ¬ (p.isCql = some true ∧ p.isErm = some true) →
        ¬ ((applyTriplePP r p).isCql = some true ∧ (applyTriplePP r p).isErm = some true))
    ∧ (∀ (f : Option (List String)) (p : ParseOut),
        ¬ (p.isCql = some true ∧ p.isErm = some true) →
        ¬ ((applyFiltersPP f p).isCql = some true ∧ (applyFiltersPP f p).isErm = some true))
    ∧ (∀ (b : Bool) (p : ParseOut),
        ¬ (p.isCql = some true ∧ p.isErm = some true) →
        ¬ (((if b then { p with isErm := some true, isCql := some false } else p) :
              ParseOut).isCql = some true
          ∧ ((if b then { p with isErm := some true, isCql := some false } else p) :
              ParseOut).isErm = some true)) := by
  refine ⟨?_, flagInv_applyTriple, flagInv_applyFilters, flagInv_ermStep⟩
  intro i lim st h
  cases i with
  | noneQ =>
    simp only [mkState] at h
    injection h with h2
    rw [← h2]
    simp
  | strQ s =>
    simp only [mkState] at h
    cases hp : parseInput (.strQ s) with
    | error e => rw [hp] at h; simp [Except.map] at h
    | ok po =>
      rw [hp] at h
      simp only [Except.map] at h
      injection h with h2
      rw [← h2]
      simpa using flagInv_parseInput _ po hp
  | dictQ d =>
    simp only [mkState] at h
    cases hp : parseInput (.dictQ d) with
    | error e => rw [hp] at h; simp [Except.map] at h
    | ok po =>
      rw [hp] at h
      simp only [Except.map] at h
      injection h with h2
      rw [← h2]
      simpa using flagInv_parseInput _ po hp
  | paramsQ ps =>
    simp only [mkState] at h
    cases hp : parseInput (.paramsQ ps) with
    | error e => rw [hp] at h; simp [Except.map] at h
    | ok po =>
      rw [hp] at h
      simp only [Except.map] at h
      injection h with h2
      rw [← h2]
      simpa using flagInv_parseInput _ po hp

/-- Witness for C9 at the concrete input `None` with limit 100. -/
theorem c9_witness :
    ¬ (stNone100.isCql = some true ∧ stNone100.isErm = some true) :=
  c9_dialect_flags_exclusive.1 .noneQ 100 stNone100 rfl

/-- C10: the positive-integer precondition on the limit is never checked:
construction succeeds or fails independently of the limit, `normalized()`
forwards a nonpositive limit unchanged into `limit` and `perPage`, and
`offset_paging(page=N)` yields `offset = N * limit` (0 for every page when the
limit is 0). -/
theorem c10_limit_unchecked :
    (∀ (i : QueryInput) (lim1 lim2 : Int), isOkE (mkState i lim1) = isOkE (mkState i lim2))
    ∧ (∀ (i : QueryInput) (lim : Int) (st : QPState), lim ≤ 0 → mkState i lim = .ok st →
        (st.isCql ≠ some false → getVals (normalizedView st) "limit" = some [toString lim])
        ∧ (st.isErm ≠ some false → getVals (normalizedView st) "perPage" = some [toString lim])
        ∧ (∀ page : Int,
            getVals (offsetPaging st (some page)) "offset" = some [toString (page * lim)])
        ∧ (lim = 0 → ∀ page : Int,
            getVals (offsetPaging st (some page)) "offset" = some [toString (0 : Int)])) := by
  constructor
  · intro i lim1 lim2
    cases i with
    | noneQ => rfl
    | strQ s => simp only [mkState]; rw [isOkE_map, isOkE_map]
    | dictQ d => simp only [mkState]; rw [isOkE_map, isOkE_map]
    | paramsQ ps => simp only [mkState]; rw [isOkE_map, isOkE_map]
  · intro i lim st hle h
    have hl := mkState_limit i lim st h
    have hmin : min st.limit 100 = st.limit := by
      rw [hl]; exact min_eq_left (by omega)
    refine ⟨?_, ?_, ?_, ?_⟩
    · intro hc
      rw [getVals_normalized_limit st hc, hl]
    · intro he
      rw [getVals_normalized_perPage st he, hl]
    · intro page
      rw [getVals_offsetPaging_offset, hmin]
      simp [hl]
    · intro h0 page
      rw [getVals_offsetPaging_offset, hmin]
      simp [hl, h0]

/-- Witness for C10 at the concrete input `None` with limits 5, -3 and 0. -/
theorem c10_witness :
    (isOkE (mkState .noneQ 5) = isOkE (mkState .noneQ (-3)))
    ∧ getVals (normalizedView stNone0) "limit" = some [toString (0 : Int)]
    ∧ getVals (offsetPaging stNone0 (some 4)) "offset" = some [toString ((4 : Int) * 0)] :=
  ⟨c10_limit_unchecked.1 .noneQ 5 (-3),
   (c10_limit_unchecked.2 .noneQ 0 stNone0 (by decide) rfl).1 (by decide),
   (c10_limit_unchecked.2 .noneQ 0 stNone0 (by decide) rfl).2.2.1 4⟩

theorem addl_applyTriple (r : Option String × Option String × Bool × Bool) (p : ParseOut) :
    (applyTriplePP r p).addl = p.addl := by
  unfold applyTriplePP
  rcases r with ⟨q, qc, b, dflt⟩
  rcases q with _ | q0 <;> rcases qc with _ | qc0 <;> cases b <;> simp

theorem addl_applyFilters (f : Option (List String)) (p : ParseOut) :
    (applyFiltersPP f p).addl = p.addl := by
  rcases f with _ | fs <;> simp [applyFiltersPP]

theorem parseInput_addl (i : QueryInput) (po : ParseOut) (h : parseInput i = .ok po) :
    po.addl = additionalParamsOf i := by
  unfold parseInput at h
  rcases hq : checkQueryRes i with e | r2 <;> rw [hq] at h
  · simp at h
  · rcases hf : checkFiltersRes i with e2 | f <;> rw [hf] at h
    · simp at h
    · rcases hs : checkSortRes i with e3 | srt <;> rw [hs] at h
      · simp at h
      · injection h with h2
        rw [← h2]
        by_cases hb : checkErmRes i = true <;>
          simp [hb, addl_applyFilters, addl_applyTriple, initPO]

theorem mkState_addl (i : QueryInput) (lim : Int) (st : QPState)
    (h : mkState i lim = .ok st) : st.additionalParams = additionalParamsOf i := by
  cases i with
  | noneQ =>
    simp only [mkState] at h
    injection h with h2
    rw [← h2]
    rfl
  | strQ s =>
    simp only [mkState] at h
    cases hp : parseInput (.strQ s) with
    | error e => rw [hp] at h; simp [Except.map] at h
    | ok po =>
      rw [hp] at h
      simp only [Except.map] at h
      injection h with h2
      rw [← h2]
      exact parseInput_addl _ po hp
  | dictQ d =>
    simp only [mkState] at h
    cases hp : parseInput (.dictQ d) with
    | error e => rw [hp] at h; simp [Except.map] at h
    | ok po =>
      rw [hp] at h
      simp only [Except.map] at h
      injection h with h2
      rw [← h2]
      exact parseInput_addl _ po hp
  | paramsQ ps =>
    simp only [mkState] at h
    cases hp : parseInput (.paramsQ ps) with
    | error e => rw [hp] at h; simp [Except.map] at h
    | ok po =>
      rw [hp] at h
      simp only [Except.map] at h
      injection h with h2
      rw [← h2]
      exact parseInput_addl _ po hp

/-- C4 counterexample: the claim says an input `sort` entry never survives as
a passthrough parameter, but for the dict input `{"sort": "index;desc"}` the
kept passthrough set does contain `sort` (the source's reserved set lacks
`sort`, and the repository's own offset-paging test relies on it surviving). -/
theorem c4_counterexample :
    ((mkState (.dictQ [("sort", .scalar (.str "index;desc"))]) 100).toOption.map
      (fun st => hasKey st.additionalParams "sort")) = some true := by
  rfl

/-- C4 amended: the passthrough parameter set kept by the Normalizer is
exactly the input's entries minus the six reserved keys
`query, filters, limit, perPage, offset, stats` — `sort` is not reserved and
does survive; for plain-string inputs the passthrough set is empty. -/
theorem c4_amended_passthrough :
    (∀ (i : QueryInput) (lim : Int) (st : QPState), mkState i lim = .ok st →
        st.additionalParams
          = (inputParams i).filter (fun kv => !(reservedKeys.contains kv.1)))
    ∧ (∀ (s : String) (lim : Int) (st : QPState), mkState (.strQ s) lim = .ok st →
        st.additionalParams = []) := by
  constructor
  · intro i lim st h
    rw [mkState_addl i lim st h]
    cases i with
    | noneQ => rfl
    | strQ s => rfl
    | dictQ d => exact foldl_removeP_eq_filter reservedKeys (toParams d)
    | paramsQ ps => exact foldl_removeP_eq_filter reservedKeys (groupPairs ps)
  · intro s lim st h
    exact (mkState_strQ_fields s lim st h).2.2.2.1

/-- Witness for C4 at the dict input `{"sort": "x", "extra": 7}` and at the
plain string `"cql."`. -/
theorem c4_witness :
    stC4.additionalParams
      = (inputParams (.dictQ c4Input)).filter (fun kv => !(reservedKeys.contains kv.1))
    ∧ stCqlDot.additionalParams = [] :=
  ⟨c4_amended_passthrough.1 (.dictQ c4Input) 100 stC4 rfl,
   c4_amended_passthrough.2 "cql." 100 stCqlDot rfl⟩

/-- C6 counterexample: the claim's error taxonomy is wrong in both directions:
the dict input `{"sort": 5}` (none of the claim's three error conditions)
raises at construction, while `{"query": 0}` (a non-string query value, which
the claim says must raise) constructs successfully because a falsy query value
is skipped before the type check. -/
theorem c6_counterexample :
    isOkE (mkState (.dictQ [("sort", .scalar (.int 5))]) 100) = false
    ∧ isOkE (mkState (.dictQ [("query", .scalar (.int 0))]) 100) = true := by
  exact ⟨rfl, rfl⟩

/-- C6 amended: construction raises exactly when — for a dict input — the
`query` value is truthy and not a string, or the `filters` value is a sequence
containing a non-string element, or (with no truthy `query` value) the `sort`
value is truthy and not a string; or — for a multi-value collection input —
the `query` key does not hold exactly one value. Falsy non-string values for
`query`/`sort` and scalar non-string `filters` values do not raise, and
plain-string or `None` inputs never raise. -/
theorem c6_amended_error_iff (i : QueryInput) (lim : Int) :
    isOkE (mkState i lim) = !(errCond i) := by
  cases i with
  | noneQ => rfl
  | strQ s => rfl
  | dictQ d =>
    have h1 : isOkE (mkState (.dictQ d) lim) = isOkE (parseInput (.dictQ d)) := by
      simp only [mkState]; rw [isOkE_map]
    rw [h1, isOkE_parseInput, isOkE_checkQueryRes_dict, isOkE_checkFiltersRes_dict,
        isOkE_checkSortRes_dict]
    show _ = !(errCondDict d)
    unfold errCondDict
    cases hq : dictLookup d "query" with
    | none =>
      cases hf : dictLookup d "filters" with
      | none => simp
      | some w => cases w <;> simp
    | some v =>
      cases htv : pyTruthy v with
      | false =>
        cases hf : dictLookup d "filters" with
        | none => simp [htv, Bool.not_or]
        | some w => cases w <;> simp [htv, Bool.not_or, Bool.and_assoc, Bool.and_comm,
            Bool.and_left_comm]
      | true =>
        cases hsv : isStrScalar v with
        | true =>
          cases hf : dictLookup d "filters" with
          | none => simp [htv, hsv]
          | some w => cases w <;> simp [htv, hsv, Bool.not_or]
        | false =>
          cases hf : dictLookup d "filters" with
          | none => simp [htv, hsv]
          | some w => cases w <;> simp [htv, hsv, Bool.not_or]
  | paramsQ ps =>
    have h1 : isOkE (mkState (.paramsQ ps) lim) = isOkE (parseInput (.paramsQ ps)) := by
      simp only [mkState]; rw [isOkE_map]
    rw [h1, isOkE_parseInput, isOkE_checkQueryRes_params, isOkE_checkFiltersRes_params,
        isOkE_checkSortRes_params]
    show _ = !(hasKey (groupPairs ps) "query" &&
      !(((getVals (groupPairs ps) "query").getD []).length == 1))
    simp

/-- C5 counterexample: the plain string `"cql."` contains no `sortby` token
yet is classified definitely CQL (CQL-true/ERM-false), and the plain string
`"xcql.allrecords sortby y"` contains a `sortby` token yet leaves both flags
unknown — so a case-insensitive `sortby` token is neither necessary nor
sufficient for the definite-CQL classification. -/
theorem c5_counterexample :
    ((mkState (.strQ "cql.") 100).toOption.map (fun st => (st.isCql, st.isErm))
      = some (some true, some false))
    ∧ ((mkState (.strQ "xcql.allrecords sortby y") 100).toOption.map
        (fun st => (st.isCql, st.isErm)) = some (Option.none, Option.none))
    ∧ containsTok ("sortby".toList) (lowerL ("cql.".toList)) = false
    ∧ containsTok ("sortby".toList) (lowerL ("xcql.allrecords sortby y".toList)) = true := by
  exact ⟨rfl, rfl, rfl, rfl⟩

/-- C5 amended: a plain string is classified definitely CQL (CQL-true/
ERM-false) if and only if `_standard_cql_re` accepts it under Python newline
semantics (`strCqlSpec`): either the first branch matches — a `cql.` token in
the first line whose tail, after the optional `allrecords` and `\s*=\s*1`
groups (whose whitespace may span newlines), has no interior newline — and
the `allrecords` group did not participate or the default-form check passes;
or no such match exists and the string contains a `sortby` token and no
interior newline. Any other plain string leaves both flags unknown, and
`normalized()` then emits both the query-family and the
filters/perPage/stats-family parameters. -/
theorem c5_amended_string_classification (s : String) (lim : Int) (st : QPState)
    (h : mkState (.strQ s) lim = .ok st) :
    ((st.isCql = some true ∧ st.isErm = some false) ↔ strCqlSpec s = true)
    ∧ (strCqlSpec s = false →
        st.isCql = Option.none ∧ st.isErm = Option.none
        ∧ hasKey (normalizedView st) "query" = true
        ∧ hasKey (normalizedView st) "limit" = true
        ∧ hasKey (normalizedView st) "filters" = true
        ∧ hasKey (normalizedView st) "perPage" = true
        ∧ hasKey (normalizedView st) "stats" = true) := by
  obtain ⟨hc, he, hqs, ha, hl⟩ := mkState_strQ_fields s lim st h
  rw [checkStrDefault_isCql_eq_spec] at hc he
  constructor
  · constructor
    · intro hb
      by_cases hspec : strCqlSpec s = true
      · exact hspec
      · rw [if_neg hspec] at hc
        rw [hc] at hb
        exact absurd hb.1 (by simp)
    · intro hspec
      rw [if_pos hspec] at hc
      rw [if_pos hspec] at he
      exact ⟨hc, he⟩
  · intro hspec
    have hspec2 : ¬ strCqlSpec s = true := by simp [hspec]
    rw [if_neg hspec2] at hc
    rw [if_neg hspec2] at he
    have hcne : st.isCql ≠ some false := by rw [hc]; simp
    have hene : st.isErm ≠ some false := by rw [he]; simp
    refine ⟨hc, he, ?_, ?_, ?_, ?_, ?_⟩
    · unfold hasKey
      rw [getVals_normalized_query st hcne]
      rfl
    · unfold hasKey
      rw [getVals_normalized_limit st hcne]
      rfl
    · exact hasKey_normalized_filters st hene (by rw [hqs]; simp)
    · unfold hasKey
      rw [getVals_normalized_perPage st hene]
      rfl
    · unfold hasKey
      rw [getVals_normalized_stats st hene]
      rfl

/-- Witness for C5 at the concrete string `"cql."` with limit 100. -/
theorem c5_witness :
    ((stCqlDot.isCql = some true ∧ stCqlDot.isErm = some false) ↔ strCqlSpec "cql." = true)
    ∧ (strCqlSpec "cql." = false →
        stCqlDot.isCql = Option.none ∧ stCqlDot.isErm = Option.none
        ∧ hasKey (normalizedView stCqlDot) "query" = true
        ∧ hasKey (normalizedView stCqlDot) "limit" = true
        ∧ hasKey (normalizedView stCqlDot) "filters" = true
        ∧ hasKey (normalizedView stCqlDot) "perPage" = true
        ∧ hasKey (normalizedView stCqlDot) "stats" = true) :=
  c5_amended_string_classification "cql." 100 stCqlDot rfl

/-- C3 counterexample: supplying the empty string as the cursor does not put
it verbatim into the CQL predicate — Python's `last_id or default` treats the
empty string as unsupplied, so for input `None` the query parameter becomes
`id>00000000-0000-0000-0000-000000000000 sortBy id` instead of the claimed
`id> sortBy id`. -/
theorem c3_counterexample :
    ((mkState .noneQ 100).toOption.map (fun st => getVals (idPaging st (some "")) "query"))
      = some (some ["id>00000000-0000-0000-0000-000000000000 sortBy id"])
    ∧ ((mkState .noneQ 100).toOption.map (fun st => getVals (idPaging st (some "")) "query"))
      ≠ some (some ["id> sortBy id"]) := by
  exact ⟨rfl, by decide⟩

/-- C3 amended: `id_paging()` with no cursor uses the all-zero UUID unless the
detected direction is descending (all-nine UUID); a *non-empty* supplied
cursor appears verbatim in the CQL cursor predicate (`id>{cursor}` ascending,
`id<{cursor}` descending) of the query parameter when CQL is not ruled out,
and in the filters entry appended when ERM is not ruled out — an empty cursor
string is treated as unsupplied and replaced by the default. -/
theorem c3_amended_id_paging_cursor (i : QueryInput) (lim : Int) (st : QPState)
    (h : mkState i lim = .ok st) :
    (idPaging st Option.none = idPaging st (some (dfltCursor st)))
    ∧ (dfltCursor st = if st.sortType = SortTy.descending
        then "99999999-9999-9999-9999-999999999999"
        else "00000000-0000-0000-0000-000000000000")
    ∧ (∀ c : String, ¬ c = "" →
        ((st.isCql ≠ some false →
          getVals (idPaging st (some c)) "query"
            = some [((if st.sortType = SortTy.descending then "id<" else "id>") ++ c)
                ++ ((if ¬ st.isDefault ∧ st.customCql.isSome then
                      " and (" ++ st.customCql.getD "" ++ ")"
                    else if ¬ st.isDefault ∧ st.query.length = 1 then
                      " and (" ++ st.query.headD "" ++ ")"
                    else "")
                  ++ (if st.sortType = SortTy.descending then " sortBy id/sort.descending"
                      else " sortBy id"))])
        ∧ (st.isErm ≠ some false →
          ∃ vs, getVals (idPaging st (some c)) "filters" = some vs
            ∧ vs.getLast? = some
                ((if st.sortType = SortTy.descending then "id<" else "id>") ++ c)))) := by
  refine ⟨?_, rfl, ?_⟩
  · show idPagingCore st (dfltCursor st)
      = idPagingCore st (if dfltCursor st = "" then dfltCursor st else dfltCursor st)
    rw [ite_self]
  · intro c hcne
    have hcur : resolveCursor st (some c) = c := by
      show (if c = "" then dfltCursor st else c) = c
      rw [if_neg hcne]
    constructor
    · intro hcql
      unfold idPaging
      rw [hcur]
      simp only [idPagingCore]
      rw [if_pos hcql]
      by_cases herm : st.isErm ≠ some false
      · rw [if_pos herm]
        rw [getVals_addP_ne _ "filters" _ "query" (by decide),
            getVals_setP_ne _ "sort" _ "query" (by decide),
            getVals_setP_self]
        rw [strAppend_assoc]
      · rw [if_neg herm]
        rw [getVals_setP_self]
        rw [strAppend_assoc]
    · intro herm
      unfold idPaging
      rw [hcur]
      simp only [idPagingCore]
      rw [if_pos herm]
      refine ⟨_, getVals_addP_self _ "filters" _, ?_⟩
      rw [List.getLast?_concat]

/-- Witness for C3 at the concrete input `None` with limit 100 and the
non-empty cursor `"abc"`. -/
theorem c3_witness :
    (idPaging stNone100 Option.none = idPaging stNone100 (some (dfltCursor stNone100)))
    ∧ (getVals (idPaging stNone100 (some "abc")) "query"
        = some [((if stNone100.sortType = SortTy.descending then "id<" else "id>") ++ "abc")
            ++ ((if ¬ stNone100.isDefault ∧ stNone100.customCql.isSome then
                  " and (" ++ stNone100.customCql.getD "" ++ ")"
                else if ¬ stNone100.isDefault ∧ stNone100.query.length = 1 then
                  " and (" ++ stNone100.query.headD "" ++ ")"
                else "")
              ++ (if stNone100.sortType = SortTy.descending then " sortBy id/sort.descending"
                  else " sortBy id"))])
    ∧ (∃ vs, getVals (idPaging stNone100 (some "abc")) "filters" = some vs
        ∧ vs.getLast? = some
            ((if stNone100.sortType = SortTy.descending then "id<" else "id>") ++ "abc")) :=
  ⟨(c3_amended_id_paging_cursor .noneQ 100 stNone100 rfl).1,
   ((c3_amended_id_paging_cursor .noneQ 100 stNone100 rfl).2.2 "abc" (by decide)).1 (by decide),
   ((c3_amended_id_paging_cursor .noneQ 100 stNone100 rfl).2.2 "abc" (by decide)).2 (by decide)⟩
